import Mathlib

/-!
Verification of the pod-store reconciliation and query engine.

The definitions in this file are a shallow embedding of the Python source:

  * `pod_store/episodes.py`   — the `Episode` entity,
  * `pod_store/podcasts.py`   — `Podcast`, `PodcastEpisodes`, and `Podcast.refresh`,
  * `pod_store/store.py`      — `StorePodcasts` (add / list / rename),
  * `pod_store/store_file_handlers.py` — `EncryptedStoreFileHandler.write_data`,
  * `pod_store/commands/filtering.py`  — the filter engine.

Modelling conventions: timestamps (`datetime` values) are natural numbers;
byte strings are `List Nat`; Python dicts are association lists that keep
insertion order, as CPython dicts do; raised exceptions are `Except` errors
or an explicit error field in a result record.
-/

namespace PodStore

/-- Errors of `pod_store/exc.py`, plus the built-in `AttributeError` that the
filter engine re-raises and the propagated failure of a feed refresh. -/
inductive PSError where
  | episodeDoesNotExist (id : String)
  | gpgCommandError
  | noEpisodesFound
  | noPodcastsFound
  | podcastDoesNotExist (title : String)
  | podcastExists (title : String)
  | attributeError (key : String)
  | refreshFailed
deriving DecidableEq, Repr

/-- A podcast episode, from `Episode.__init__` in `pod_store/episodes.py`.
The `podcast` back-reference of the Python object is not carried here: it is
only used for download paths and audio metadata, outside the embedded core. -/
structure Episode where
  id : String
  episodeNumber : String
  title : String
  shortDescription : String
  longDescription : String
  url : String
  tags : List String
  createdAt : Nat
  updatedAt : Nat
  downloadedAt : Option Nat
deriving DecidableEq, Repr

/-- An enclosure link of a raw RSS entry: one element of `links`. -/
structure FeedLink where
  href : String
  type : String
deriving DecidableEq, Repr

/-- A raw feed entry as `feedparser` hands it to `Podcast.refresh`; the field
names mirror the keyword arguments of `Podcast._parse_episode_feed_data`.
`published_parsed` is already a timestamp. -/
structure FeedEntry where
  id : String
  title : String
  summary : String
  links : List FeedLink
  publishedParsed : Nat
  subtitle : Option String := none
  itunesEpisode : Option String := none
  updatedParsed : Option Nat := none
deriving DecidableEq, Repr

/-- The dict returned by `Podcast._parse_episode_feed_data`: valid `Episode`
attributes derived from one raw entry.  `episodeNumber` is the raw
`itunes_episode` value, still optional at this stage. -/
structure EpisodeFeedData where
  title : String
  id : String
  longDescription : String
  url : String
  createdAt : Nat
  shortDescription : String
  episodeNumber : Option String
  updatedAt : Nat
deriving DecidableEq, Repr

/-! ### Python dict operations on association lists -/

/-- Lookup `d.get(k)`: the value of the first pair whose key is `k`. -/
def dictGet : List (String × α) → String → Option α
  | [], _ => none
  | kv :: es, id => if kv.1 = id then some kv.2 else dictGet es id

/-- Assignment `d[k] = v`: replaces the value at an existing key in place,
otherwise appends the new pair at the end, as CPython dicts do. -/
def dictAssign : List (String × α) → String → α → List (String × α)
  | [], id, v => [(id, v)]
  | kv :: es, id, v =>
    if kv.1 = id then (kv.1, v) :: es else kv :: dictAssign es id v

/-- Deletion `del d[k]`: removes the pair keyed `k`. -/
def dictDelete : List (String × α) → String → List (String × α)
  | [], _ => []
  | kv :: es, id => if kv.1 = id then dictDelete es id else kv :: dictDelete es id

/-- Key membership `k in d`. -/
def dictHasKey : List (String × α) → String → Bool
  | [], _ => false
  | kv :: es, id => kv.1 = id || dictHasKey es id

/-! ### Python `sorted`

`sorted(xs, key=f)` is a stable sort: elements are ordered by their keys and
elements with equal keys keep their original relative order.
`sorted(xs, key=f, reverse=True)` reverses the comparison but is still
stable.  Both are modelled by a stable insertion sort parameterised by the
comparison `le` (`le x y` meaning `x` may stay before `y`). -/

/-- Inserts `x` (originally positioned before every element of the list)
in front of the first element it may precede. -/
def pyInsert (le : α → α → Bool) (x : α) : List α → List α
  | [] => [x]
  | y :: ys => if le x y then x :: y :: ys else y :: pyInsert le x ys

/-- Stable sort modelling Python `sorted`. -/
def pySorted (le : α → α → Bool) : List α → List α
  | [] => []
  | x :: xs => pyInsert le x (pySorted le xs)

/-! ### Episode feed data normalization (`Podcast` static helpers) -/

/-- Python `s.split("/")` on a character list: splits at every slash and
keeps empty segments, so the result is never empty. -/
def splitOnSlash : List Char → List (List Char)
  | [] => [[]]
  | c :: cs =>
    match splitOnSlash cs with
    | [] => [[c]]
    | g :: gs => if c = '/' then [] :: g :: gs else (c :: g) :: gs

/-- Parse a store episode ID from the RSS feed ID: `rss_id.split("/")[-1]`,
from `Podcast._parse_store_episode_id`. -/
def parseStoreEpisodeId (rssId : String) : String :=
  String.mk ((splitOnSlash rssId.data).getLastD [])

/-- Create an episode number padded with up to 3 zeros:
`episode_number.rjust(4, "0")`, from `Podcast._pad_episode_number`. -/
def padEpisodeNumber (episodeNumber : String) : String :=
  String.mk (List.replicate (4 - episodeNumber.length) '0') ++ episodeNumber

/-- Drops the non-ASCII characters: `text.encode("ascii", "ignore")`. -/
def stripNonAscii (s : String) : String :=
  String.mk (s.data.filter (fun c => c.toNat < 128))

/-- Scans for the closing `>` of a markup tag: succeeds at the first `>`
provided no `<` occurs first, returning the remainder of the text. -/
def scanTagClose : List Char → Option (List Char)
  | [] => none
  | c :: cs => if c = '>' then some cs else if c = '<' then none else scanTagClose cs

/-- Attempts to match the tail of the lazy pattern `<[^<]+?>` right after a
`<`: at least one character other than `<`, then the first `>`. -/
def findTagEnd : List Char → Option (List Char)
  | [] => none
  | c :: cs => if c = '<' then none else scanTagClose cs

/-- The scan of `re.sub("<[^<]+?>", "", text)`, structurally recursive on
a fuel counter so that the kernel can evaluate it: at a `<` whose tag
closes, the scan resumes after the removed tag (`findTagEnd` never returns
a list longer than its input, so fuel initialized to the text length never
runs out and the zero-fuel arm is unreachable). -/
def stripHtmlTagsGo : Nat → List Char → List Char
  | _, [] => []
  | 0, l => l
  | fuel + 1, c :: cs =>
    if c = '<' then
      match findTagEnd cs with
      | some rest => stripHtmlTagsGo fuel rest
      | none => c :: stripHtmlTagsGo fuel cs
    else c :: stripHtmlTagsGo fuel cs

/-- Removes every non-overlapping leftmost match of `<[^<]+?>`, the scan
resuming after each removed tag: `re.sub("<[^<]+?>", "", text)`. -/
def stripHtmlTags (l : List Char) : List Char :=
  stripHtmlTagsGo l.length l

/-- Strip HTML tags and non-ASCII characters from RSS feed data, from
`Podcast._strip_html_and_non_ascii_characters`: the ASCII filtering runs
first, the tag removal second. -/
def stripHtmlAndNonAsciiCharacters (text : String) : String :=
  String.mk (stripHtmlTags (stripNonAscii text).data)

/-- Converts one raw RSS entry into episode attributes, from
`Podcast._parse_episode_feed_data`.  Returns `none` when the Python code
raises: the enclosure lookup `[u["href"] for u in links if u["type"] in
("audio/mpeg", "audio/mp3")][0]` fails with `IndexError` when no link
qualifies.  An empty `subtitle` is falsy in Python, so it falls back to the
long description; a missing `updated_parsed` falls back to `published`. -/
def parseEpisodeFeedData (entry : FeedEntry) : Option EpisodeFeedData :=
  let id := parseStoreEpisodeId entry.id
  let longDescription := stripHtmlAndNonAsciiCharacters entry.summary
  match (entry.links.filter (fun u => u.type == "audio/mpeg" || u.type == "audio/mp3")).head? with
  | none => none
  | some link =>
    let shortDescription :=
      match entry.subtitle with
      | some s => if s = "" then longDescription else stripHtmlAndNonAsciiCharacters s
      | none => longDescription
    let updatedAt :=
      match entry.updatedParsed with
      | some t => t
      | none => entry.publishedParsed
    some {
      title := entry.title
      id := id
      longDescription := longDescription
      url := link.href
      createdAt := entry.publishedParsed
      shortDescription := shortDescription
      episodeNumber := entry.itunesEpisode
      updatedAt := updatedAt
    }

/-- The store id an entry normalizes to. -/
def normalizedId (entry : FeedEntry) : String :=
  parseStoreEpisodeId entry.id

/-! ### The per-podcast episode collection (`PodcastEpisodes`)

The `_episodes` dict is an association list from store id to `Episode`. -/

/-- In-place update of an existing episode during a refresh:
`episode.update(**episode_data)` sets exactly the keys of the dict built by
`_parse_episode_feed_data` plus the padded `episode_number`; `tags`,
`downloaded_at` and the podcast reference are not among them. -/
def episodeUpdate (e : Episode) (d : EpisodeFeedData) (episodeNumber : String) : Episode :=
  { e with
    title := d.title
    id := d.id
    longDescription := d.longDescription
    url := d.url
    createdAt := d.createdAt
    shortDescription := d.shortDescription
    episodeNumber := episodeNumber
    updatedAt := d.updatedAt }

/-- A brand-new episode as `PodcastEpisodes.add` constructs it: tagged
`["new"]`, with `downloaded_at` left at the constructor default `None`. -/
def episodeNew (d : EpisodeFeedData) (episodeNumber : String) : Episode :=
  { id := d.id
    episodeNumber := episodeNumber
    title := d.title
    shortDescription := d.shortDescription
    longDescription := d.longDescription
    url := d.url
    tags := ["new"]
    createdAt := d.createdAt
    updatedAt := d.updatedAt
    downloadedAt := none }

/-- The sorted listing of `PodcastEpisodes.list` with no filters:
`sorted(episodes, key=lambda e: e.created_at, reverse=True)`, most recent
first, ties keeping insertion order. -/
def podcastEpisodesListAll (es : List (String × Episode)) : List Episode :=
  pySorted (fun a b => b.createdAt ≤ a.createdAt) (es.map (·.2))

/-- Deletion by store id, from `PodcastEpisodes.delete`: raises
`EpisodeDoesNotExistError` when the id is not a key. -/
def podcastEpisodesDelete (es : List (String × Episode)) (id : String) :
    Except PSError (List (String × Episode)) :=
  if dictHasKey es id then .ok (dictDelete es id)
  else .error (.episodeDoesNotExist id)

/-! ### The `Podcast` entity and its refresh -/

/-- A podcast, from `Podcast.__init__` in `pod_store/podcasts.py`. -/
structure Podcast where
  title : String
  episodeDownloadsPath : String
  feed : String
  tags : List String
  createdAt : Nat
  updatedAt : Nat
  episodes : List (String × Episode)
deriving DecidableEq, Repr

/-- The main loop of `Podcast.refresh` over the feed entries, carrying the
episode dict, `episodes_seen`, the total `number_of_entries` and the current
`entry_number`.  Per entry: normalize it (a normalization failure aborts the
refresh, modelled as `none`), derive the episode number (the feed hint when
truthy, else `str(number_of_entries - entry_number)`), pad it, and upsert by
the normalized id. -/
def refreshLoop (es : List (String × Episode)) (seen : List String)
    (numberOfEntries entryNumber : Nat) :
    List FeedEntry → Option (List (String × Episode) × List String)
  | [] => some (es, seen)
  | entry :: rest =>
    match parseEpisodeFeedData entry with
    | none => none
    | some episodeData =>
      let episodeNumber :=
        match episodeData.episodeNumber with
        | some s => if s = "" then toString (numberOfEntries - entryNumber) else s
        | none => toString (numberOfEntries - entryNumber)
      let paddedNumber := padEpisodeNumber episodeNumber
      let es2 :=
        match dictGet es episodeData.id with
        | some episode => dictAssign es episodeData.id (episodeUpdate episode episodeData paddedNumber)
        | none => dictAssign es episodeData.id (episodeNew episodeData paddedNumber)
      refreshLoop es2 (seen ++ [episodeData.id]) numberOfEntries (entryNumber + 1) rest

/-- The cleanup pass of `Podcast.refresh`: iterate over a snapshot of
`self.episodes.list()` and delete every episode whose id was not seen; a
failing delete (possible when a stored key differs from its episode's `id`
field) propagates `EpisodeDoesNotExistError`, modelled as `none`. -/
def pruneLoop (seen : List String) :
    List Episode → List (String × Episode) → Option (List (String × Episode))
  | [], es => some es
  | e :: rest, es =>
    if seen.contains e.id then pruneLoop seen rest es
    else
      match podcastEpisodesDelete es e.id with
      | .error _ => none
      | .ok es2 => pruneLoop seen rest es2

/-- Refresh the episode data tracked for this podcast, from
`Podcast.refresh`.  `now` is the wall-clock time at the call; the source
body never reads the clock, so the result does not depend on it.  `entries`
is the parsed feed listing supplied by the external feed fetcher.  Returns
`none` when the source raises (a normalization or prune failure). -/
def refresh (now : Nat) (p : Podcast) (entries : List FeedEntry) : Option Podcast :=
  match refreshLoop p.episodes [] entries.length 0 entries with
  | none => none
  | some (es, seen) =>
    match pruneLoop seen (podcastEpisodesListAll es) es with
    | none => none
    | some pruned => some { p with episodes := pruned }

/-! ### Python values reachable by filter criteria

Filter values coming from the CLI are booleans, strings, integers or
`None`; attribute lookups can additionally produce lists (`tags`) and
opaque objects (back-references, bound methods, computed paths), which never
compare equal to any CLI-supplied value. -/

/-- A Python value as seen by the filter engine's `==` comparisons. -/
inductive PyVal where
  | pyBool (b : Bool)
  | pyStr (s : String)
  | pyInt (n : Int)
  | pyNone
  | pyList (l : List String)
  | pyObj
deriving DecidableEq, Repr

/-- Python `==` on the values above.  `bool` is an `int` subclass, so
`True == 1` and `False == 0`; values of unrelated types compare unequal.
Opaque objects compare by identity, never equal to a CLI-supplied value. -/
def pyEq : PyVal → PyVal → Bool
  | .pyBool a, .pyBool b => a == b
  | .pyBool a, .pyInt n => (if a then (1 : Int) else 0) == n
  | .pyInt n, .pyBool a => n == (if a then (1 : Int) else 0)
  | .pyInt a, .pyInt b => a == b
  | .pyStr a, .pyStr b => a == b
  | .pyNone, .pyNone => true
  | .pyList a, .pyList b => a == b
  | _, _ => false

/-- Attribute lookup `getattr(episode, key)` over the spec-level attribute
namespace of `Episode`: its data fields, its `download_path` property and
its bound methods (all opaque here).  Double-underscore object plumbing is
outside the modelled namespace.  `none` models `AttributeError`. -/
def episodeAttr (e : Episode) : String → Option PyVal
  | "id" => some (.pyStr e.id)
  | "episode_number" => some (.pyStr e.episodeNumber)
  | "title" => some (.pyStr e.title)
  | "short_description" => some (.pyStr e.shortDescription)
  | "long_description" => some (.pyStr e.longDescription)
  | "url" => some (.pyStr e.url)
  | "tags" => some (.pyList e.tags)
  | "created_at" => some (.pyInt e.createdAt)
  | "updated_at" => some (.pyInt e.updatedAt)
  | "downloaded_at" =>
    match e.downloadedAt with
    | some t => some (.pyInt t)
    | none => some .pyNone
  | "podcast" => some .pyObj
  | "download_path" => some .pyObj
  | "download" => some .pyObj
  | "set_audio_file_metadata" => some .pyObj
  | "update" => some .pyObj
  | "tag" => some .pyObj
  | "untag" => some .pyObj
  | "to_json" => some .pyObj
  | "from_json" => some .pyObj
  | _ => none

/-- Modelled from the spec: `util.meets_list_filter_criteria`, called by
`PodcastEpisodes.list` and `StorePodcasts.list` but absent from the
`pod_store/util.py` in the tree (only its callers and tests are present).
Per the unknown-field rule of §4.3 and the behavior its tests pin down, it
is the same attribute-or-tag dispatch as `Filter._check_filter_criteria`:
compare the attribute when the entity has one, otherwise treat `True` /
`False` as tag presence / absence checks, and re-raise the
`AttributeError` for any other value. -/
def meetsListFilterCriteria (attr : String → Option PyVal) (tags : List String)
    (key : String) (value : PyVal) : Except PSError Bool :=
  match attr key with
  | some v => .ok (pyEq v value)
  | none =>
    if value = .pyBool true then .ok (tags.contains key)
    else if value = .pyBool false then .ok (!tags.contains key)
    else .error (.attributeError key)

/-- The filtered episode listing of `PodcastEpisodes.list`: apply each
criteria as a comprehension (a raised error aborts the listing), raise
`NoEpisodesFoundError` when the result is empty and `allow_empty` is off,
and return the survivors sorted most recent first. -/
def podcastEpisodesList (es : List (String × Episode)) (allowEmpty : Bool)
    (filters : List (String × PyVal)) : Except PSError (List Episode) := do
  let episodes := es.map (·.2)
  let episodes ← filters.foldlM
    (fun eps kv => eps.filterM (fun e => meetsListFilterCriteria (episodeAttr e) e.tags kv.1 kv.2))
    episodes
  if episodes.isEmpty && !allowEmpty then
    throw .noEpisodesFound
  else
    pure (pySorted (fun a b => b.createdAt ≤ a.createdAt) episodes)

/-- The `Podcast.has_new_episodes` property:
`bool(self.episodes.list(new=True))`.  The single criteria `new=True` is a
tag-presence check, so the listing never raises; the error branch is
unreachable. -/
def hasNewEpisodes (p : Podcast) : Except PSError Bool :=
  (podcastEpisodesList p.episodes true [("new", .pyBool true)]).map (fun l => !l.isEmpty)

/-- The `Podcast.number_of_new_episodes` property. -/
def numberOfNewEpisodes (p : Podcast) : Except PSError Nat :=
  (podcastEpisodesList p.episodes true [("new", .pyBool true)]).map List.length

/-- Attribute lookup `getattr(podcast, key)` over the spec-level attribute
namespace of `Podcast`: data fields, computed properties, the episode
collection and bound methods.  The two computed properties cannot raise (see
`hasNewEpisodes`), so their fallback arm is unreachable. -/
def podcastAttr (p : Podcast) : String → Option PyVal
  | "title" => some (.pyStr p.title)
  | "episode_downloads_path" => some (.pyStr p.episodeDownloadsPath)
  | "feed" => some (.pyStr p.feed)
  | "tags" => some (.pyList p.tags)
  | "created_at" => some (.pyInt p.createdAt)
  | "updated_at" => some (.pyInt p.updatedAt)
  | "episodes" => some .pyObj
  | "has_new_episodes" =>
    match hasNewEpisodes p with
    | .ok b => some (.pyBool b)
    | .error _ => some .pyObj
  | "number_of_new_episodes" =>
    match numberOfNewEpisodes p with
    | .ok n => some (.pyInt n)
    | .error _ => some .pyObj
  | "refresh" => some .pyObj
  | "tag" => some .pyObj
  | "untag" => some .pyObj
  | "to_json" => some .pyObj
  | "from_json" => some .pyObj
  | _ => none

/-! ### The store-wide podcast collection (`StorePodcasts`) -/

/-- The `StorePodcasts` state: the podcast dict keyed by title, plus the
configured downloads directory. -/
structure StorePodcasts where
  podcasts : List (String × Podcast)
  podcastDownloadsPath : String
deriving DecidableEq, Repr

/-- POSIX `os.path.join` for the two-argument uses in the source: an
absolute second component wins; otherwise the components are joined with a
separator unless one is already there. -/
def pathJoin (a b : String) : String :=
  if b.data.head? = some '/' then b
  else if a = "" then b
  else if a.data.getLast? = some '/' then a ++ b
  else a ++ "/" ++ b

/-- The outcome of `StorePodcasts.add`: the collection afterwards, whether
`podcast.refresh()` was reached, and the returned podcast or raised error. -/
structure AddOutcome where
  state : StorePodcasts
  refreshAttempted : Bool
  result : Except PSError Podcast
deriving Repr

/-- Adding a podcast, from `StorePodcasts.add`: raises
`PodcastExistsError` before building anything when the title is already a
key; otherwise builds the podcast (downloads path derived from the title,
empty episode data, timestamps defaulting to the current time), refreshes
it against its feed — a refresh failure propagates with the collection
untouched — and only then inserts it. -/
def storePodcastsAdd (now : Nat) (sp : StorePodcasts) (title feed : String)
    (tags : List String) (entries : List FeedEntry) : AddOutcome :=
  if dictHasKey sp.podcasts title then
    { state := sp
      refreshAttempted := false
      result := .error (.podcastExists title) }
  else
    let podcast : Podcast :=
      { title := title
        episodeDownloadsPath := pathJoin sp.podcastDownloadsPath title
        feed := feed
        tags := tags
        createdAt := now
        updatedAt := now
        episodes := [] }
    match refresh now podcast entries with
    | none =>
      { state := sp
        refreshAttempted := true
        result := .error .refreshFailed }
    | some refreshed =>
      { state := { sp with podcasts := dictAssign sp.podcasts title refreshed }
        refreshAttempted := true
        result := .ok refreshed }

/-- The podcast listing of `StorePodcasts.list`: filter by plain
`getattr(p, key) == value` (a missing attribute raises `AttributeError`
with no tag fallback), then sort by `created_at` ascending, ties keeping
insertion order. -/
def storePodcastsList (sp : StorePodcasts) (filters : List (String × PyVal)) :
    Except PSError (List Podcast) := do
  let podcasts := sp.podcasts.map (·.2)
  let podcasts ← filters.foldlM
    (fun ps kv => ps.filterM (fun p =>
      match podcastAttr p kv.1 with
      | some v => pure (pyEq v kv.2)
      | none => throw (.attributeError kv.1)))
    podcasts
  pure (pySorted (fun a b => a.createdAt ≤ b.createdAt) podcasts)

/-- Renaming a podcast, from `StorePodcasts.rename`: fails with
`PodcastExistsError` when the new title is taken and with
`PodcastDoesNotExistError` when the old one is absent; otherwise recomputes
the podcast's `episode_downloads_path` from the new title, stores the same
podcast object under the new key and deletes the old key.  The podcast's
`title` attribute is not touched. -/
def storePodcastsRename (sp : StorePodcasts) (oldTitle newTitle : String) :
    Except PSError StorePodcasts :=
  if dictHasKey sp.podcasts newTitle then
    .error (.podcastExists newTitle)
  else
    match dictGet sp.podcasts oldTitle with
    | none => .error (.podcastDoesNotExist oldTitle)
    | some podcast =>
      let podcast := { podcast with
        episodeDownloadsPath := pathJoin sp.podcastDownloadsPath newTitle }
      let withNew := dictAssign sp.podcasts newTitle podcast
      .ok { sp with podcasts := dictDelete withNew oldTitle }

/-! ### The filter engine (`pod_store/commands/filtering.py`) -/

/-- An object the filter engine can be pointed at
(`Union[Episode, Podcast]`). -/
inductive FilterObj where
  | episode (e : Episode)
  | podcast (p : Podcast)
deriving Repr

/-- Attribute lookup on a filterable object. -/
def objAttr : FilterObj → String → Option PyVal
  | .episode e => episodeAttr e
  | .podcast p => podcastAttr p

/-- The `tags` attribute the fallback path reads. -/
def objTags : FilterObj → List String
  | .episode e => e.tags
  | .podcast p => p.tags

/-- Determines if an episode or podcast meets a filter criteria, from
`Filter._check_filter_criteria`: compare `getattr(obj, key)` with the
value; on `AttributeError`, a value that *is* `True` / `False` becomes a
tag presence / absence check, and any other value re-raises the
`AttributeError`. -/
def checkFilterCriteria (obj : FilterObj) (key : String) (value : PyVal) :
    Except PSError Bool :=
  match objAttr obj key with
  | some v => .ok (pyEq v value)
  | none =>
    if value = .pyBool true then .ok ((objTags obj).contains key)
    else if value = .pyBool false then .ok (!(objTags obj).contains key)
    else .error (.attributeError key)

/-- Checks whether an object meets all the provided filter criteria, from
`Filter._passes_filters`: the loop returns `False` at the first criteria
that fails, so later criteria are not evaluated. -/
def passesFilters (obj : FilterObj) : List (String × PyVal) → Except PSError Bool
  | [] => .ok true
  | (key, value) :: rest => do
    let ok ← checkFilterCriteria obj key value
    if ok then passesFilters obj rest else pure false

/-- The podcast filters dict of `Filter._podcast_filters`:
`has_new_episodes=True` when filtering for new episodes, `title` when a
podcast scope was given, then the extra podcast filters merged on top. -/
def podcastFiltersOf (newEpisodes : Bool) (podcastTitle : Option String)
    (extraPodcastFilters : List (String × PyVal)) : List (String × PyVal) :=
  let filters : List (String × PyVal) :=
    (if newEpisodes then [("has_new_episodes", .pyBool true)] else []) ++
    (match podcastTitle with
     | some t => [("title", .pyStr t)]
     | none => [])
  extraPodcastFilters.foldl (fun acc kv => dictAssign acc kv.1 kv.2) filters

/-- The `Filter.podcasts` property: list every podcast in the store, keep
those passing the podcast filters and raise `NoPodcastsFoundError` when
none remain. -/
def filterPodcasts (sp : StorePodcasts) (podcastFilters : List (String × PyVal)) :
    Except PSError (List Podcast) := do
  let all ← storePodcastsList sp []
  let podcasts ← all.filterM (fun p => passesFilters (.podcast p) podcastFilters)
  if podcasts.isEmpty then throw .noPodcastsFound
  else pure podcasts

/-- The episode filters dict of `EpisodeFilter._episode_filters`: the plain
filters, plus `new=True` when filtering for new episodes. -/
def episodeFiltersOf (newEpisodes : Bool) (filters : List (String × PyVal)) :
    List (String × PyVal) :=
  if newEpisodes then dictAssign filters "new" (.pyBool true) else filters

/-- Episodes of one podcast meeting the filter criteria, from
`EpisodeFilter.get_podcast_episodes`: the podcast's full sorted listing,
filtered. -/
def getPodcastEpisodes (podcast : Podcast) (episodeFilters : List (String × PyVal)) :
    Except PSError (List Episode) := do
  let eps ← podcastEpisodesList podcast.episodes true []
  eps.filterM (fun e => passesFilters (.episode e) episodeFilters)

/-- The `EpisodeFilter._episodes` property backing `EpisodeFilter.items`:
resolve the podcasts, concatenate each podcast's filtered episodes and
raise `NoEpisodesFoundError` when nothing matched.  There is no
episode-number ambiguity check anywhere on this path: an episode-number
criteria with no podcast scope simply scans every podcast. -/
def episodeFilterItems (sp : StorePodcasts) (newEpisodes : Bool)
    (podcastTitle : Option String) (extraPodcastFilters : List (String × PyVal))
    (filters : List (String × PyVal)) : Except PSError (List Episode) := do
  let podcasts ← filterPodcasts sp (podcastFiltersOf newEpisodes podcastTitle extraPodcastFilters)
  let episodeFilters := episodeFiltersOf newEpisodes filters
  let episodes ← podcasts.foldlM
    (fun acc pod => do
      let eps ← getPodcastEpisodes pod episodeFilters
      pure (acc ++ eps))
    []
  if episodes.isEmpty then throw .noEpisodesFound
  else pure episodes

/-! ### Serialization (`to_json`)

Timestamps stay abstract numbers where the source renders isoformat
strings. -/

/-- The dict produced by `Episode.to_json`. -/
structure EpisodeJson where
  id : String
  episodeNumber : String
  title : String
  shortDescription : String
  longDescription : String
  url : String
  tags : List String
  createdAt : Nat
  updatedAt : Nat
  downloadedAt : Option Nat
deriving DecidableEq, Repr

/-- Serialization of one episode, from `Episode.to_json`. -/
def episodeToJson (e : Episode) : EpisodeJson :=
  { id := e.id
    episodeNumber := e.episodeNumber
    title := e.title
    shortDescription := e.shortDescription
    longDescription := e.longDescription
    url := e.url
    tags := e.tags
    createdAt := e.createdAt
    updatedAt := e.updatedAt
    downloadedAt := e.downloadedAt }

/-- The dict produced by `Podcast.to_json`. -/
structure PodcastJson where
  title : String
  episodeDownloadsPath : String
  feed : String
  tags : List String
  createdAt : Nat
  updatedAt : Nat
  episodeData : List (String × EpisodeJson)
deriving DecidableEq, Repr

/-- Serialization of one podcast and its episode map, from
`Podcast.to_json` and `PodcastEpisodes.to_json`. -/
def podcastToJson (p : Podcast) : PodcastJson :=
  { title := p.title
    episodeDownloadsPath := p.episodeDownloadsPath
    feed := p.feed
    tags := p.tags
    createdAt := p.createdAt
    updatedAt := p.updatedAt
    episodeData := p.episodes.map (fun kv => (kv.1, episodeToJson kv.2)) }

/-! ### The encrypted store file handler -/

/-- The two file-system locations `EncryptedStoreFileHandler.write_data`
touches: the store file and the temporary plaintext file next to it.
`none` means the file does not exist; bytes are lists of numbers. -/
structure GpgFileSystem where
  storeFile : Option (List Nat)
  tmpFile : Option (List Nat)
deriving DecidableEq, Repr

/-- The outcome of a `write_data` call: the file system afterwards and the
raised error, if any. -/
structure WriteOutcome where
  fileSystem : GpgFileSystem
  error : Option PSError
deriving DecidableEq, Repr

/-- Writing encrypted data, from `EncryptedStoreFileHandler.write_data`:
buffer the existing store bytes (an absent file reads as the empty byte
string) and remove the file; dump the plaintext to the temporary file; run
the external `gpg --encrypt` producing `ciphertext` at the store path.  On
tool failure remove the temporary file, restore the buffered bytes to the
store path and raise `GPGCommandError`; on success remove the temporary
file. -/
def encryptedWriteData (gpgSucceeds : Bool) (ciphertext plaintext : List Nat)
    (fs : GpgFileSystem) : WriteOutcome :=
  let existingData := fs.storeFile.getD []
  let fs : GpgFileSystem := { fs with storeFile := none }
  let fs : GpgFileSystem := { fs with tmpFile := some plaintext }
  if gpgSucceeds then
    { fileSystem := { fs with storeFile := some ciphertext, tmpFile := none }
      error := none }
  else
    { fileSystem := { fs with storeFile := some existingData, tmpFile := none }
      error := some .gpgCommandError }

/-! ### Fixtures used by witnesses and counterexamples

Concrete values in the shape of the repository's test fixtures
(`conftest.py`): a podcast with one new episode and one downloaded episode,
and feed entries covering the hinted and unhinted numbering paths. -/

/-- Fixture episode `aaa`: tagged new, not downloaded. -/
def epAaa : Episode :=
  { id := "aaa"
    episodeNumber := "0023"
    title := "hello"
    shortDescription := "hello world"
    longDescription := "hello world (longer description)"
    url := "http://foo.bar/aaa.mp3"
    tags := ["new"]
    createdAt := 5
    updatedAt := 5
    downloadedAt := none }

/-- Fixture episode `zzz`: tagged foo, downloaded. -/
def epZzz : Episode :=
  { id := "zzz"
    episodeNumber := "0011"
    title := "goodbye"
    shortDescription := "goodbye world"
    longDescription := "goodbye world (longer description)"
    url := "http://foo.bar/zzz.mp3"
    tags := ["foo"]
    createdAt := 6
    updatedAt := 6
    downloadedAt := some 7 }

/-- Fixture podcast `greetings` tracking `aaa` and `zzz`. -/
def podGreetings : Podcast :=
  { title := "greetings"
    episodeDownloadsPath := "/dl/greetings"
    feed := "http://hello.world/rss"
    tags := ["hello"]
    createdAt := 1
    updatedAt := 1
    episodes := [("aaa", epAaa), ("zzz", epZzz)] }

/-- Feed entry whose id is already bare and which carries no episode-number
hint. -/
def entryCcc : FeedEntry :=
  { id := "ccc"
    title := "no-number-provided"
    summary := "this is a <b>long</b> description"
    links := [{ href := "https://www.foo.bar/ccc.mp3", type := "audio/mpeg" }]
    publishedParsed := 10
    subtitle := some "this is a short description" }

/-- Feed entry with a URL-shaped id normalizing to `aaa` and an explicit
episode-number hint `23`. -/
def entryAaa : FeedEntry :=
  { id := "https://www.foo.bar/aaa"
    title := "hello-updated"
    summary := "hello world"
    links := [{ href := "http://www.foo.bar/aaa.mp3", type := "audio/mpeg" }]
    publishedParsed := 11
    updatedParsed := some 12
    itunesEpisode := some "23" }

/-- Feed entry normalizing to `zzz`, no hint. -/
def entryZzz : FeedEntry :=
  { id := "https://www.foo.bar/zzz"
    title := "goodbye-updated"
    summary := "goodbye world"
    links := [{ href := "http://www.foo.bar/zzz.mp3", type := "audio/mpeg" }]
    publishedParsed := 12 }

/-- The two-entry fixture feed listing. -/
def fixtureFeed : List FeedEntry := [entryCcc, entryAaa]

/-- Fixture episode `bbb` of the second podcast, also numbered `0023`. -/
def epBbb : Episode :=
  { epAaa with id := "bbb", title := "parting", createdAt := 7 }

/-- Fixture podcast `farewell` tracking one episode numbered `0023` as
well, to exercise cross-podcast episode scans. -/
def podFarewell : Podcast :=
  { title := "farewell"
    episodeDownloadsPath := "/dl/farewell"
    feed := "http://goodbye.world/rss"
    tags := []
    createdAt := 2
    updatedAt := 1
    episodes := [("bbb", epBbb)] }

/-- Fixture podcast `other`: no episodes, `updated_at` 4. -/
def podOther : Podcast :=
  { title := "other"
    episodeDownloadsPath := "/dl/other"
    feed := "http://other.thing/rss"
    tags := ["inactive"]
    createdAt := 3
    updatedAt := 4
    episodes := [] }

/-- Fixture store holding `greetings` and `farewell`. -/
def fixtureStore : StorePodcasts :=
  { podcasts := [("greetings", podGreetings), ("farewell", podFarewell)]
    podcastDownloadsPath := "/dl" }

end PodStore

namespace PodStore

/-! ### Helper lemmas about the dict operations and the stable sort -/

theorem dictGet_isSome_eq_hasKey (es : List (String × α)) (k : String) :
    (dictGet es k).isSome = dictHasKey es k := by
  induction es with
  | nil => rfl
  | cons kv es ih =>
    by_cases h : kv.1 = k
    · simp [dictGet, dictHasKey, h]
    · simp [dictGet, dictHasKey, h, ih]

theorem dictGet_assign_self (es : List (String × α)) (k : String) (v : α) :
    dictGet (dictAssign es k v) k = some v := by
  induction es with
  | nil => simp [dictAssign, dictGet]
  | cons kv es ih =>
    by_cases h : kv.1 = k
    · simp [dictAssign, dictGet, h]
    · simp [dictAssign, dictGet, h, ih]

theorem dictGet_assign_ne (es : List (String × α)) (k k2 : String) (v : α)
    (h : k2 ≠ k) : dictGet (dictAssign es k v) k2 = dictGet es k2 := by
  have hsym : k ≠ k2 := Ne.symm h
  induction es with
  | nil => simp [dictAssign, dictGet, hsym]
  | cons kv es ih =>
    by_cases hk : kv.1 = k
    · have hk2 : kv.1 ≠ k2 := by
        rw [hk]; exact hsym
      simp [dictAssign, dictGet, hk, hk2, hsym]
    · by_cases hk2 : kv.1 = k2
      · simp [dictAssign, dictGet, hk, hk2, h]
      · simp [dictAssign, dictGet, hk, hk2, ih]

theorem dictHasKey_assign (es : List (String × α)) (k k2 : String) (v : α) :
    dictHasKey (dictAssign es k v) k2 = (k2 == k || dictHasKey es k2) := by
  induction es with
  | nil =>
    by_cases h : k = k2
    · simp [dictAssign, dictHasKey, h]
    · have h2 : ¬k2 = k := fun hh => h hh.symm
      simp [dictAssign, dictHasKey, h, h2]
  | cons kv es ih =>
    by_cases hk : kv.1 = k
    · by_cases hk2 : kv.1 = k2
      · have : k2 = k := by rw [← hk2, hk]
        simp [dictAssign, dictHasKey, hk, hk2, this]
      · have : k2 ≠ k := by rw [← hk]; exact fun hh => hk2 hh.symm
        simp [dictAssign, dictHasKey, hk, hk2, this]
    · by_cases hk2 : kv.1 = k2
      · by_cases hkk : k2 = k
        · rw [← hk2] at hkk; exact absurd hkk hk
        · simp [dictAssign, dictHasKey, hk, hk2, hkk]
      · simp [dictAssign, dictHasKey, hk, hk2, ih]

theorem dictGet_delete_ne (es : List (String × α)) (d k : String) (h : k ≠ d) :
    dictGet (dictDelete es d) k = dictGet es k := by
  have hsym : d ≠ k := Ne.symm h
  induction es with
  | nil => rfl
  | cons kv es ih =>
    by_cases hd : kv.1 = d
    · have : kv.1 ≠ k := by rw [hd]; exact hsym
      simp [dictDelete, dictGet, hd, this, ih, hsym]
    · by_cases hk : kv.1 = k
      · simp [dictDelete, dictGet, hd, hk, h]
      · simp [dictDelete, dictGet, hd, hk, ih]

theorem mem_of_mem_dictDelete {es : List (String × α)} {d : String}
    {kv : String × α} (h : kv ∈ dictDelete es d) : kv ∈ es := by
  induction es with
  | nil => simpa [dictDelete] using h
  | cons kw es ih =>
    by_cases hd : kw.1 = d
    · simp only [dictDelete, if_pos hd] at h
      exact List.mem_cons_of_mem _ (ih h)
    · simp only [dictDelete, if_neg hd, List.mem_cons] at h
      rcases h with h | h
      · exact h ▸ List.mem_cons_self _ _
      · exact List.mem_cons_of_mem _ (ih h)

theorem dictHasKey_delete_self (es : List (String × α)) (d : String) :
    dictHasKey (dictDelete es d) d = false := by
  induction es with
  | nil => rfl
  | cons kv es ih =>
    by_cases hd : kv.1 = d
    · simp [dictDelete, hd, ih]
    · simp [dictDelete, dictHasKey, hd, ih]

theorem dictGet_delete_self (es : List (String × α)) (d : String) :
    dictGet (dictDelete es d) d = none := by
  have h := dictHasKey_delete_self es d
  rw [← dictGet_isSome_eq_hasKey] at h
  cases hg : dictGet (dictDelete es d) d with
  | none => rfl
  | some v => rw [hg] at h; cases h

theorem mem_dictAssign {es : List (String × α)} {k : String} {v : α}
    {kv : String × α} (h : kv ∈ dictAssign es k v) : kv ∈ es ∨ kv = (k, v) := by
  induction es with
  | nil => simpa [dictAssign] using h
  | cons kw es ih =>
    by_cases hk : kw.1 = k
    · simp only [dictAssign, if_pos hk, List.mem_cons] at h
      rcases h with h | h
      · right; rw [h, hk]
      · left; exact List.mem_cons_of_mem _ h
    · simp only [dictAssign, if_neg hk, List.mem_cons] at h
      rcases h with h | h
      · left; exact h ▸ List.mem_cons_self _ _
      · rcases ih h with h2 | h2
        · left; exact List.mem_cons_of_mem _ h2
        · right; exact h2

theorem mem_pyInsert (le : α → α → Bool) (x y : α) (l : List α) :
    y ∈ pyInsert le x l ↔ y = x ∨ y ∈ l := by
  induction l with
  | nil => simp [pyInsert]
  | cons z l ih =>
    unfold pyInsert
    split
    · simp
    · simp only [List.mem_cons, ih]
      tauto

theorem mem_pySorted (le : α → α → Bool) (x : α) (l : List α) :
    x ∈ pySorted le l ↔ x ∈ l := by
  induction l with
  | nil => simp [pySorted]
  | cons z l ih =>
    unfold pySorted
    rw [mem_pyInsert]
    simp only [List.mem_cons, ih]

/-! ### Lemmas about the refresh loop and the prune pass -/

theorem parseEpisodeFeedData_id {entry : FeedEntry} {ed : EpisodeFeedData}
    (h : parseEpisodeFeedData entry = some ed) : ed.id = normalizedId entry := by
  unfold parseEpisodeFeedData at h
  cases hl : (entry.links.filter
      (fun u => u.type == "audio/mpeg" || u.type == "audio/mp3")).head? with
  | none => rw [hl] at h; cases h
  | some link =>
    rw [hl] at h
    simp only [Option.some_inj] at h
    rw [← h]
    rfl

theorem refreshLoop_seen :
    ∀ (entries : List FeedEntry) (es : List (String × Episode)) (seen : List String)
      (n i : Nat) (es2 : List (String × Episode)) (seen2 : List String),
      refreshLoop es seen n i entries = some (es2, seen2) →
      seen2 = seen ++ entries.map normalizedId := by
  intro entries
  induction entries with
  | nil =>
    intro es seen n i es2 seen2 h
    simp only [refreshLoop, Option.some_inj, Prod.mk.injEq] at h
    simp [h.2]
  | cons entry rest ih =>
    intro es seen n i es2 seen2 h
    rw [refreshLoop] at h
    cases hp : parseEpisodeFeedData entry with
    | none => rw [hp] at h; cases h
    | some ed =>
      rw [hp] at h
      simp only at h
      have := ih _ _ _ _ _ _ h
      rw [this, parseEpisodeFeedData_id hp]
      simp [normalizedId]

theorem refreshLoop_hasKey :
    ∀ (entries : List FeedEntry) (es : List (String × Episode)) (seen : List String)
      (n i : Nat) (es2 : List (String × Episode)) (seen2 : List String),
      refreshLoop es seen n i entries = some (es2, seen2) →
      ∀ k, dictHasKey es2 k = true ↔
        dictHasKey es k = true ∨ k ∈ entries.map normalizedId := by
  intro entries
  induction entries with
  | nil =>
    intro es seen n i es2 seen2 h k
    simp only [refreshLoop, Option.some_inj, Prod.mk.injEq] at h
    rw [← h.1]
    simp
  | cons entry rest ih =>
    intro es seen n i es2 seen2 h k
    rw [refreshLoop] at h
    cases hp : parseEpisodeFeedData entry with
    | none => rw [hp] at h; cases h
    | some ed =>
      rw [hp] at h
      simp only at h
      rw [parseEpisodeFeedData_id hp] at h
      cases hg : dictGet es (normalizedId entry) with
      | some episode =>
        rw [hg] at h
        have hstep := ih _ _ _ _ _ _ h k
        rw [hstep, dictHasKey_assign]
        by_cases hk : k = normalizedId entry
        · simp [hk, ← dictGet_isSome_eq_hasKey, hg]
        · simp [hk, show (k == normalizedId entry) = false by simp [hk]]
      | none =>
        rw [hg] at h
        have hstep := ih _ _ _ _ _ _ h k
        rw [hstep, dictHasKey_assign]
        by_cases hk : k = normalizedId entry
        · simp [hk]
        · simp [hk, show (k == normalizedId entry) = false by simp [hk]]

theorem refreshLoop_preserves :
    ∀ (entries : List FeedEntry) (es : List (String × Episode)) (seen : List String)
      (n i : Nat) (es2 : List (String × Episode)) (seen2 : List String),
      refreshLoop es seen n i entries = some (es2, seen2) →
      ∀ k e, dictGet es k = some e →
        ∃ e2, dictGet es2 k = some e2 ∧
          e2.tags = e.tags ∧ e2.downloadedAt = e.downloadedAt := by
  intro entries
  induction entries with
  | nil =>
    intro es seen n i es2 seen2 h k e hk
    simp only [refreshLoop, Option.some_inj, Prod.mk.injEq] at h
    exact ⟨e, h.1 ▸ hk, rfl, rfl⟩
  | cons entry rest ih =>
    intro es seen n i es2 seen2 h k e hk
    rw [refreshLoop] at h
    cases hp : parseEpisodeFeedData entry with
    | none => rw [hp] at h; cases h
    | some ed =>
      rw [hp] at h
      simp only at h
      cases hg : dictGet es ed.id with
      | some episode =>
        rw [hg] at h
        by_cases hke : k = ed.id
        · have hee : episode = e := by
            rw [hke] at hk
            rw [hk] at hg
            exact (Option.some_inj.mp hg).symm
          subst hee
          have hself := dictGet_assign_self es ed.id
            (episodeUpdate episode ed (padEpisodeNumber
              (match ed.episodeNumber with
               | some s => if s = "" then toString (n - i) else s
               | none => toString (n - i))))
          obtain ⟨e2, he2, ht, hd⟩ := ih _ _ _ _ _ _ h ed.id _ hself
          exact ⟨e2, by rw [hke]; exact he2, ht, hd⟩
        · have hne := dictGet_assign_ne es ed.id k
            (episodeUpdate episode ed (padEpisodeNumber
              (match ed.episodeNumber with
               | some s => if s = "" then toString (n - i) else s
               | none => toString (n - i)))) hke
          obtain ⟨e2, he2, ht, hd⟩ := ih _ _ _ _ _ _ h k e (by rw [hne]; exact hk)
          exact ⟨e2, he2, ht, hd⟩
      | none =>
        rw [hg] at h
        by_cases hke : k = ed.id
        · subst hke
          rw [hk] at hg; cases hg
        · have hne := dictGet_assign_ne es ed.id k
            (episodeNew ed (padEpisodeNumber
              (match ed.episodeNumber with
               | some s => if s = "" then toString (n - i) else s
               | none => toString (n - i)))) hke
          obtain ⟨e2, he2, ht, hd⟩ := ih _ _ _ _ _ _ h k e (by rw [hne]; exact hk)
          exact ⟨e2, he2, ht, hd⟩

theorem refreshLoop_wf :
    ∀ (entries : List FeedEntry) (es : List (String × Episode)) (seen : List String)
      (n i : Nat) (es2 : List (String × Episode)) (seen2 : List String),
      refreshLoop es seen n i entries = some (es2, seen2) →
      (∀ kv ∈ es, kv.2.id = kv.1) →
      ∀ kv ∈ es2, kv.2.id = kv.1 := by
  intro entries
  induction entries with
  | nil =>
    intro es seen n i es2 seen2 h hwf
    simp only [refreshLoop, Option.some_inj, Prod.mk.injEq] at h
    exact h.1 ▸ hwf
  | cons entry rest ih =>
    intro es seen n i es2 seen2 h hwf
    rw [refreshLoop] at h
    cases hp : parseEpisodeFeedData entry with
    | none => rw [hp] at h; cases h
    | some ed =>
      rw [hp] at h
      simp only at h
      cases hg : dictGet es ed.id with
      | some episode =>
        rw [hg] at h
        refine ih _ _ _ _ _ _ h ?_
        intro kv hkv
        rcases mem_dictAssign hkv with h2 | h2
        · exact hwf kv h2
        · rw [h2]; rfl
      | none =>
        rw [hg] at h
        refine ih _ _ _ _ _ _ h ?_
        intro kv hkv
        rcases mem_dictAssign hkv with h2 | h2
        · exact hwf kv h2
        · rw [h2]; rfl

theorem pruneLoop_subset :
    ∀ (eps : List Episode) (seen : List String) (es es2 : List (String × Episode)),
      pruneLoop seen eps es = some es2 → ∀ kv ∈ es2, kv ∈ es := by
  intro eps
  induction eps with
  | nil =>
    intro seen es es2 h kv hkv
    simp only [pruneLoop, Option.some_inj] at h
    exact h ▸ hkv
  | cons e rest ih =>
    intro seen es es2 h kv hkv
    rw [pruneLoop] at h
    split at h
    · exact ih _ _ _ h kv hkv
    · cases hdel : podcastEpisodesDelete es e.id with
      | error err => rw [hdel] at h; cases h
      | ok es1 =>
        rw [hdel] at h
        have hmem := ih _ _ _ h kv hkv
        unfold podcastEpisodesDelete at hdel
        split at hdel
        · cases hdel
          exact mem_of_mem_dictDelete hmem
        · cases hdel

theorem pruneLoop_get_of_seen :
    ∀ (eps : List Episode) (seen : List String) (es es2 : List (String × Episode)),
      pruneLoop seen eps es = some es2 →
      ∀ k, seen.contains k = true → dictGet es2 k = dictGet es k := by
  intro eps
  induction eps with
  | nil =>
    intro seen es es2 h k _
    simp only [pruneLoop, Option.some_inj] at h
    rw [h]
  | cons e rest ih =>
    intro seen es es2 h k hk
    rw [pruneLoop] at h
    split at h
    · exact ih _ _ _ h k hk
    · rename_i hid
      cases hdel : podcastEpisodesDelete es e.id with
      | error err => rw [hdel] at h; cases h
      | ok es1 =>
        rw [hdel] at h
        have hne : k ≠ e.id := by
          intro hkk
          rw [hkk] at hk
          exact hid hk
        have h1 := ih _ _ _ h k hk
        unfold podcastEpisodesDelete at hdel
        split at hdel
        · cases hdel
          rw [h1, dictGet_delete_ne _ _ _ hne]
        · cases hdel

theorem contains_eq_true_iff_mem (l : List String) (a : String) :
    l.contains a = true ↔ a ∈ l := by
  induction l with
  | nil => simp
  | cons x l ih =>
    simp only [List.contains_cons, List.mem_cons, Bool.or_eq_true, beq_iff_eq, ih]

theorem exists_mem_of_hasKey {es : List (String × α)} {k : String}
    (h : dictHasKey es k = true) : ∃ v, (k, v) ∈ es := by
  induction es with
  | nil => cases h
  | cons kw tl ih =>
    by_cases hkk : kw.1 = k
    · exact ⟨kw.2, by rw [← hkk]; exact List.mem_cons_self _ _⟩
    · simp only [dictHasKey, hkk, decide_False, Bool.false_or] at h
      obtain ⟨v, hv⟩ := ih h
      exact ⟨v, List.mem_cons_of_mem _ hv⟩

theorem key_ne_of_mem_dictDelete {es : List (String × α)} {d : String}
    {kv : String × α} (h : kv ∈ dictDelete es d) : kv.1 ≠ d := by
  induction es with
  | nil => simp [dictDelete] at h
  | cons kw tl ih =>
    by_cases hkk : kw.1 = d
    · rw [dictDelete, if_pos hkk] at h
      exact ih h
    · rw [dictDelete, if_neg hkk] at h
      rcases List.mem_cons.mp h with hh | hh
      · rw [hh]; exact hkk
      · exact ih hh

theorem pruneLoop_not_seen_absent :
    ∀ (eps : List Episode) (seen : List String) (es es2 : List (String × Episode)),
      pruneLoop seen eps es = some es2 →
      ∀ e ∈ eps, seen.contains e.id = false → dictHasKey es2 e.id = false := by
  intro eps
  induction eps with
  | nil =>
    intro seen es es2 h e he
    cases he
  | cons e0 rest ih =>
    intro seen es es2 h e he hns
    rw [pruneLoop] at h
    rcases List.mem_cons.mp he with he0 | herest
    · subst he0
      split at h
      · rename_i hid
        rw [hns] at hid
        cases hid
      · cases hdel : podcastEpisodesDelete es e.id with
        | error err => rw [hdel] at h; cases h
        | ok es1 =>
          rw [hdel] at h
          unfold podcastEpisodesDelete at hdel
          split at hdel
          · cases hdel
            by_contra hcontra
            rw [Bool.not_eq_false] at hcontra
            obtain ⟨v, hv⟩ := exists_mem_of_hasKey hcontra
            have hmem := pruneLoop_subset _ _ _ _ h _ hv
            exact key_ne_of_mem_dictDelete hmem rfl
          · cases hdel
    · split at h
      · exact ih _ _ _ h e herest hns
      · cases hdel : podcastEpisodesDelete es e0.id with
        | error err => rw [hdel] at h; cases h
        | ok es1 =>
          rw [hdel] at h
          exact ih _ _ _ h e herest hns

/-! ### Claim theorems -/

/-- C1: for every podcast whose episode collection keys its episodes by
their own ids (the only shape the store record format of §6 can express)
and every feed listing whose entries all normalize successfully (so that
`refresh` completes), the set of episode ids tracked afterwards equals
exactly the set of ids derived from the feed entries by taking the last
path segment of each feed-native id: missing ids are added and ids absent
from the feed are deleted. -/
theorem refresh_reconciliation_completeness
    (now : Nat) (p : Podcast) (entries : List FeedEntry) (p2 : Podcast)
    (hwf : ∀ kv ∈ p.episodes, kv.2.id = kv.1)
    (h : refresh now p entries = some p2) :
    ∀ id, dictHasKey p2.episodes id = true ↔ id ∈ entries.map normalizedId := by
  unfold refresh at h
  cases hloop : refreshLoop p.episodes [] entries.length 0 entries with
  | none => rw [hloop] at h; cases h
  | some res =>
    obtain ⟨es, seen⟩ := res
    rw [hloop] at h
    simp only at h
    cases hprune : pruneLoop seen (podcastEpisodesListAll es) es with
    | none => rw [hprune] at h; cases h
    | some pruned =>
      rw [hprune] at h
      have hp2 : p2.episodes = pruned := by
        rw [← Option.some_inj.mp h]
      have hseen := refreshLoop_seen _ _ _ _ _ _ _ hloop
      simp only [List.nil_append] at hseen
      have hkeys := refreshLoop_hasKey _ _ _ _ _ _ _ hloop
      have hwf2 := refreshLoop_wf _ _ _ _ _ _ _ hloop hwf
      intro id
      constructor
      · intro hid
        rw [hp2] at hid
        by_contra hno
        obtain ⟨v, hv⟩ := exists_mem_of_hasKey hid
        have hmem_es : (id, v) ∈ es := pruneLoop_subset _ _ _ _ hprune _ hv
        have hvid : v.id = id := hwf2 _ hmem_es
        have hv_val : v ∈ podcastEpisodesListAll es := by
          rw [podcastEpisodesListAll, mem_pySorted]
          exact List.mem_map_of_mem _ hmem_es
        have hcontains : seen.contains v.id = false := by
          rw [hvid, hseen]
          rw [Bool.eq_false_iff]
          intro hc
          exact hno ((contains_eq_true_iff_mem _ _).mp hc)
        have habsent := pruneLoop_not_seen_absent _ _ _ _ hprune v hv_val hcontains
        rw [hvid] at habsent
        rw [habsent] at hid
        cases hid
      · intro hid
        have hcont : seen.contains id = true := by
          rw [hseen]
          exact (contains_eq_true_iff_mem _ _).mpr hid
        have hget := pruneLoop_get_of_seen _ _ _ _ hprune id hcont
        have hkey_es : dictHasKey es id = true := (hkeys id).mpr (Or.inr hid)
        rw [hp2, ← dictGet_isSome_eq_hasKey, hget, dictGet_isSome_eq_hasKey]
        exact hkey_es

/-- Witness for C1 on the fixture podcast and feed: the fixture tracks
`aaa` and `zzz`, the feed normalizes to `ccc` and `aaa`, and after the
refresh `ccc` is tracked while `zzz` is not. -/
theorem refresh_reconciliation_completeness_witness :
    ∃ p2, refresh 0 podGreetings fixtureFeed = some p2 ∧
      dictHasKey p2.episodes "ccc" = true ∧
      dictHasKey p2.episodes "zzz" = false := by
  cases hr : refresh 0 podGreetings fixtureFeed with
  | none => exact absurd hr (by decide)
  | some p2 =>
    refine ⟨p2, rfl, ?_, ?_⟩
    · exact (refresh_reconciliation_completeness 0 podGreetings fixtureFeed p2
        (by decide) hr "ccc").mpr (by decide)
    · have := refresh_reconciliation_completeness 0 podGreetings fixtureFeed p2
        (by decide) hr "zzz"
      rw [Bool.eq_false_iff]
      intro hc
      exact absurd (this.mp hc) (by decide)

/-- C2: an episode tracked before the refresh whose id also appears among
the feed's normalized ids is still tracked afterwards with its `tags` list
and its `downloaded_at` value unchanged: the in-place `Episode.update`
only touches the descriptive fields, the timestamps and the episode
number. -/
theorem refresh_reconciliation_preservation
    (now : Nat) (p : Podcast) (entries : List FeedEntry) (p2 : Podcast)
    (id : String) (e : Episode)
    (hget : dictGet p.episodes id = some e)
    (hid : id ∈ entries.map normalizedId)
    (h : refresh now p entries = some p2) :
    ∃ e2, dictGet p2.episodes id = some e2 ∧
      e2.tags = e.tags ∧ e2.downloadedAt = e.downloadedAt := by
  unfold refresh at h
  cases hloop : refreshLoop p.episodes [] entries.length 0 entries with
  | none => rw [hloop] at h; cases h
  | some res =>
    obtain ⟨es, seen⟩ := res
    rw [hloop] at h
    simp only at h
    cases hprune : pruneLoop seen (podcastEpisodesListAll es) es with
    | none => rw [hprune] at h; cases h
    | some pruned =>
      rw [hprune] at h
      have hp2 : p2.episodes = pruned := by
        rw [← Option.some_inj.mp h]
      have hseen := refreshLoop_seen _ _ _ _ _ _ _ hloop
      simp only [List.nil_append] at hseen
      obtain ⟨e2, he2, ht, hd⟩ := refreshLoop_preserves _ _ _ _ _ _ _ hloop id e hget
      have hcont : seen.contains id = true := by
        rw [hseen]
        exact (contains_eq_true_iff_mem _ _).mpr hid
      have hpres := pruneLoop_get_of_seen _ _ _ _ hprune id hcont
      exact ⟨e2, by rw [hp2, hpres]; exact he2, ht, hd⟩

/-- Witness for C2 on the fixture: episode `aaa` (tagged `["new"]`, not
downloaded) survives the fixture refresh with tags and download state
intact. -/
theorem refresh_reconciliation_preservation_witness :
    ∃ p2, refresh 0 podGreetings fixtureFeed = some p2 ∧
      ∃ e2, dictGet p2.episodes "aaa" = some e2 ∧
        e2.tags = ["new"] ∧ e2.downloadedAt = none := by
  cases hr : refresh 0 podGreetings fixtureFeed with
  | none => exact absurd hr (by decide)
  | some p2 =>
    obtain ⟨e2, he2, ht, hd⟩ := refresh_reconciliation_preservation 0 podGreetings
      fixtureFeed p2 "aaa" epAaa rfl (by decide) hr
    exact ⟨p2, rfl, e2, he2, ht, hd⟩

/-- C3: when the external encryption tool fails during
`EncryptedStoreFileHandler.write_data`, the call raises `GPGCommandError`,
the store file afterwards holds exactly the bytes it held before (the empty
byte sequence when it did not previously exist), and the plaintext
temporary file is gone. -/
theorem encrypted_write_failure_atomicity (ciphertext plaintext : List Nat)
    (fs : GpgFileSystem) :
    (encryptedWriteData false ciphertext plaintext fs).error = some PSError.gpgCommandError ∧
    (encryptedWriteData false ciphertext plaintext fs).fileSystem.storeFile =
      some (fs.storeFile.getD []) ∧
    (encryptedWriteData false ciphertext plaintext fs).fileSystem.tmpFile = none :=
  ⟨rfl, rfl, rfl⟩

/-- C4: `StorePodcasts.add` with a title already present fails with
`PodcastExistsError`, leaves the podcast collection unchanged and never
reaches the feed refresh. -/
theorem store_podcasts_add_duplicate_title (now : Nat) (sp : StorePodcasts)
    (title feed : String) (tags : List String) (entries : List FeedEntry)
    (h : dictHasKey sp.podcasts title = true) :
    storePodcastsAdd now sp title feed tags entries =
      { state := sp
        refreshAttempted := false
        result := .error (.podcastExists title) } := by
  simp [storePodcastsAdd, h]

/-- Witness for C4: adding `greetings` to the fixture store, which already
holds a podcast of that title. -/
theorem store_podcasts_add_duplicate_title_witness :
    storePodcastsAdd 9 fixtureStore "greetings" "http://feed.example/rss" [] [] =
      { state := fixtureStore
        refreshAttempted := false
        result := .error (.podcastExists "greetings") } :=
  store_podcasts_add_duplicate_title 9 fixtureStore "greetings"
    "http://feed.example/rss" [] [] (by decide)

/-- C5 evidence: the refresh numbering of the source under test.  On a
two-entry feed with no hints the entries are numbered `n − i` and stored
zero-padded (`"0002"`, `"0001"`), with no dependence on any
`reverse_episode_order` flag — the `Podcast` class of the tree has no such
attribute, while the repository's own test
`test_podcast_refresh_with_reversed_episode_order` sets it and expects the
first entry to be numbered `1`, and `test_podcast_refresh` expects the
plain number `2`; a hinted entry is stored as the padded hint `"0023"`, not
the hint itself. -/
theorem refresh_numbering_eval :
    (refresh 0 podOther [entryCcc, entryZzz]).map
        (fun p => p.episodes.map (fun kv => (kv.1, kv.2.episodeNumber))) =
      some [("ccc", "0002"), ("zzz", "0001")] ∧
    (refresh 0 podOther [entryAaa]).map
        (fun p => p.episodes.map (fun kv => (kv.1, kv.2.episodeNumber))) =
      some [("aaa", "0023")] := by
  exact ⟨by decide, by decide⟩

/-- Counterexample to C6: refreshing the fixture podcast (updated_at 4) at
current time 9 completes and leaves `updated_at` at 4, not 9 — the source
body of `Podcast.refresh` never touches the podcast's `updated_at`. -/
theorem refresh_updated_at_counterexample :
    (refresh 9 podOther []).map Podcast.updatedAt = some 4 ∧ (4 : Nat) ≠ 9 :=
  ⟨by decide, by decide⟩

/-- C6 as amended: `Podcast.refresh` leaves the podcast's `updated_at`
unchanged whatever the current time is; it never reads the clock. -/
theorem refresh_leaves_updated_at_unchanged (now : Nat) (p : Podcast)
    (entries : List FeedEntry) (p2 : Podcast)
    (h : refresh now p entries = some p2) : p2.updatedAt = p.updatedAt := by
  unfold refresh at h
  cases hloop : refreshLoop p.episodes [] entries.length 0 entries with
  | none => rw [hloop] at h; cases h
  | some res =>
    obtain ⟨es, seen⟩ := res
    rw [hloop] at h
    simp only at h
    cases hprune : pruneLoop seen (podcastEpisodesListAll es) es with
    | none => rw [hprune] at h; cases h
    | some pruned =>
      rw [hprune] at h
      rw [← Option.some_inj.mp h]

/-- Witness for the amended C6 on the fixture podcast. -/
theorem refresh_leaves_updated_at_unchanged_witness :
    ∃ p2, refresh 9 podOther [] = some p2 ∧ p2.updatedAt = podOther.updatedAt := by
  cases hr : refresh 9 podOther [] with
  | none => exact absurd hr (by decide)
  | some p2 => exact ⟨p2, rfl, refresh_leaves_updated_at_unchanged 9 podOther [] p2 hr⟩

/-- C7 evidence: an `EpisodeFilter` carrying an episode-number criteria and
no podcast-title scope does not fail with any ambiguity error — no
`AmbiguousEpisodeError` exists in `pod_store/exc.py` of the tree — but
scans every podcast of the store and returns matches from all of them,
here one episode from each of the two fixture podcasts; the repository's
own test
`test_filter_from_command_arguments_single_episode_without_podcast_raises_error`
expects `AmbiguousEpisodeError` instead. -/
theorem episode_filter_number_without_scope_scans_all :
    episodeFilterItems fixtureStore false none [] [("episode_number", .pyStr "0023")] =
      .ok [epAaa, epBbb] := by
  rfl

/-- C8 evidence: `PodcastEpisodes.list` sorts by `created_at` with
`reverse=True` — most recent first — so the fixture episodes come back
`[zzz (created 6), aaa (created 5)]`, while the claim and the repository's
own test `test_podcast_episodes_list_sorts_episodes_by_created_time`
expect ascending order `[aaa, zzz]`; the podcast collection's
`StorePodcasts.list` does sort ascending, as the second conjunct shows. -/
theorem podcast_episodes_list_descending_eval :
    podcastEpisodesList podGreetings.episodes true [] = .ok [epZzz, epAaa] ∧
    storePodcastsList fixtureStore [] = .ok [podGreetings, podFarewell] := by
  exact ⟨rfl, rfl⟩

/-- C9: a filter criteria whose name is not an attribute of the target
entity is dispatched to the tag list: value `True` matches exactly when
the name is a tag, value `False` matches exactly when it is not, and any
other value makes the engine re-raise the `AttributeError` instead of
silently treating the entity as non-matching. -/
theorem check_filter_criteria_unknown_field (obj : FilterObj) (key : String)
    (value : PyVal) (h : objAttr obj key = none) :
    (value = .pyBool true →
      checkFilterCriteria obj key value = .ok ((objTags obj).contains key)) ∧
    (value = .pyBool false →
      checkFilterCriteria obj key value = .ok (!(objTags obj).contains key)) ∧
    (value ≠ .pyBool true → value ≠ .pyBool false →
      checkFilterCriteria obj key value = .error (.attributeError key)) := by
  refine ⟨?_, ?_, ?_⟩
  · intro hv
    subst hv
    simp [checkFilterCriteria, h]
  · intro hv
    subst hv
    simp [checkFilterCriteria, h]
  · intro h1 h2
    simp [checkFilterCriteria, h, h1, h2]

/-- Witness for C9: `zozozozo` is no attribute of an episode; with the
string value `"hello"` the engine fails with the attribute error. -/
theorem check_filter_criteria_unknown_field_witness :
    objAttr (.episode epAaa) "zozozozo" = none ∧
    checkFilterCriteria (.episode epAaa) "zozozozo" (.pyStr "hello") =
      .error (.attributeError "zozozozo") :=
  ⟨rfl, (check_filter_criteria_unknown_field (.episode epAaa) "zozozozo"
    (.pyStr "hello") rfl).2.2 (by decide) (by decide)⟩

/-- C10: renaming a stored podcast re-keys the entry to the new title and
recomputes its downloads path from the new title, but leaves the podcast
object's `title` attribute — and hence the `title` field of its serialized
record under the new key — equal to the old title. -/
theorem store_podcasts_rename_keeps_title_attribute
    (sp : StorePodcasts) (oldTitle newTitle : String) (p : Podcast)
    (hnew : dictGet sp.podcasts newTitle = none)
    (hold : dictGet sp.podcasts oldTitle = some p)
    (htitle : p.title = oldTitle) :
    ∃ sp2, storePodcastsRename sp oldTitle newTitle = .ok sp2 ∧
      dictGet sp2.podcasts newTitle =
        some { p with episodeDownloadsPath := pathJoin sp.podcastDownloadsPath newTitle } ∧
      dictGet sp2.podcasts oldTitle = none ∧
      (dictGet sp2.podcasts newTitle).map (fun q => (podcastToJson q).title) =
        some oldTitle := by
  have hne : newTitle ≠ oldTitle := by
    intro hh
    rw [hh, hold] at hnew
    cases hnew
  have hkeynew : dictHasKey sp.podcasts newTitle = false := by
    rw [← dictGet_isSome_eq_hasKey, hnew]
    rfl
  refine ⟨{ sp with podcasts := dictDelete (dictAssign sp.podcasts newTitle { p with episodeDownloadsPath := pathJoin sp.podcastDownloadsPath newTitle }) oldTitle }, ?_, ?_, ?_, ?_⟩
  · unfold storePodcastsRename
    rw [hold]
    simp only [hkeynew, Bool.false_eq_true, if_false]
  · simp only
    rw [dictGet_delete_ne _ _ _ hne, dictGet_assign_self]
  · simp only
    rw [dictGet_delete_self]
  · simp only
    rw [dictGet_delete_ne _ _ _ hne, dictGet_assign_self]
    exact congrArg some htitle

/-- Witness for C10: renaming fixture podcast `greetings` to `salutations`
stores it under `salutations` with its serialized title still
`greetings`. -/
theorem store_podcasts_rename_keeps_title_attribute_witness :
    ∃ sp2, storePodcastsRename fixtureStore "greetings" "salutations" = .ok sp2 ∧
      dictGet sp2.podcasts "salutations" =
        some { podGreetings with episodeDownloadsPath := pathJoin fixtureStore.podcastDownloadsPath "salutations" } ∧
      dictGet sp2.podcasts "greetings" = none ∧
      (dictGet sp2.podcasts "salutations").map (fun q => (podcastToJson q).title) =
        some "greetings" :=
  store_podcasts_rename_keeps_title_attribute fixtureStore "greetings" "salutations"
    podGreetings (by decide) (by decide) rfl

end PodStore
